import Mathlib

/-
Verification development for the CTPS `modxlib` utility library.

The repository carries two revisions of the same module:
  * `src/modxlib.py`          - version 0.2.0 (embedded below in namespace `Modxlib`)
  * `src/modxlib/modxlib.py`  - version 0.1.5 (embedded below in namespace `ModxlibV015`)

The embedding is shallow: Python dictionaries become association lists,
Python's exception propagation becomes `Except PyErr`, pandas dataframes keyed
by (ROUTE, STOP) become association lists from that key pair to a record of the
nine numeric counter columns, and the numeric cells are modelled as integers
(the boarding counts of the CSV inputs are integral; pandas stores them as
floats after `fillna`, a representation detail that does not affect the sums
proved here, which are exact for integral data).
-/

set_option autoImplicit false

/-- Model of a Python runtime value as stored in a record read from a DBF
file via `dbfread`: numeric fields arrive as Python ints, character fields as
strings. -/
inductive PyVal : Type where
  | int (n : Int) : PyVal
  | str (s : String) : PyVal
deriving DecidableEq

/-- Model of the Python exceptions that the embedded code can raise.
The constructor `missingAttributeError` models the `MissingAttributeError`
exception class named by the specification; no class of that name exists in
the source or in the libraries it uses, and nothing in the embedding ever
raises it — it is present only so that statements about it can be written. -/
inductive PyErr : Type where
  | keyError (k : String) : PyErr
  | nameError (name : String) : PyErr
  | typeError (msg : String) : PyErr
  | valueError (msg : String) : PyErr
  | missingAttributeError (k : String) : PyErr
deriving DecidableEq

/-- True exactly on the `missingAttributeError` constructor. -/
def PyErr.isMissingAttribute : PyErr → Bool
  | .missingAttributeError _ => true
  | _ => false

/-- First-match association-list lookup. The dicts built by the embedded code
have unique keys, so first-match agrees with Python dict semantics. -/
def pyLookup {α : Type} : List (String × α) → String → Option α
  | [], _ => none
  | (k1, v1) :: t, k => if k = k1 then some v1 else pyLookup t k

/-- Model of Python `d[k]` on a dict: the value, or a `KeyError` naming the key. -/
def pyGet {α : Type} (d : List (String × α)) (k : String) : Except PyErr α :=
  match pyLookup d k with
  | some v => .ok v
  | none => .error (.keyError k)

/-- Model of Python `d[k] = v` on a dict: replace in place when the key is
present, append otherwise (Python dicts preserve insertion order). -/
def pySet {α : Type} : List (String × α) → String → α → List (String × α)
  | [], k, v => [(k, v)]
  | (k1, v1) :: t, k, v =>
      if k = k1 then (k, v) :: t else (k1, v1) :: pySet t k v

/-- The keys of a modelled dict, in insertion order. -/
def dictKeys {α : Type} (d : List (String × α)) : List String :=
  d.map Prod.fst

namespace Modxlib

/-
Embedding of src/modxlib.py, version 0.2.0.
-/

def _version : String := "0.2.0"

def get_version : String := _version

def _all_time_periods : List String := ["am", "md", "pm", "nt"]

def _auto_modes : List String := ["SOV", "HOV"]

def _truck_modes : List String :=
  ["Heavy_Truck", "Heavy_Truck_HazMat", "Medium_Truck", "Medium_Truck_HazMat", "Light_Truck"]

def _nm_modes : List String := ["Walk", "Bike"]

def _transit_modes : List String :=
  ["DAT_Boat", "DET_Boat", "DAT_CR", "DET_CR", "DAT_LB", "DET_LB", "DAT_RT", "DET_RT", "WAT"]

def _all_modes : List String := _auto_modes ++ _truck_modes ++ _nm_modes ++ _transit_modes

/-- Model of the handle returned by `omx.open_file(path, mode)`: an external
collaborator, observed only through the path and mode it was opened with.
(In the source file the name `omx` is in fact never imported, so a real call
would raise a NameError before opening anything; the handle model captures the
intended external collaborator so the file-to-key wiring can be examined.) -/
structure OmxFile : Type where
  path : String
  mode : String
deriving DecidableEq

/-- Embedding of `open_trip_tables` (src/modxlib.py lines 46-57).
Note that the source binds `tt_md` but then passes `tt_pm` for the `'md'` key. -/
def open_trip_tables (tt_dir : String) : List (String × OmxFile) :=
  let tt_am := tt_dir ++ "AfterSC_Final_AM_Tables.omx"
  let tt_md := tt_dir ++ "AfterSC_Final_MD_Tables.omx"
  let tt_pm := tt_dir ++ "AfterSC_Final_PM_Tables.omx"
  let tt_nt := tt_dir ++ "AfterSC_Final_NT_Tables.omx"
  let _ := tt_md
  [ ("am", OmxFile.mk tt_am "r"),
    ("md", OmxFile.mk tt_pm "r"),
    ("pm", OmxFile.mk tt_pm "r"),
    ("nt", OmxFile.mk tt_nt "r") ]

/-- Inner loop of `load_trip_tables`: `for mode in modes:
temp = tt_omxs[period][mode]; retval[period][mode] = np.array(temp)`.
An open OMX file is modelled as a dict from matrix name to matrix (type `α`,
kept abstract; `np.array` copies the value unchanged).  Either indexing step
may raise a KeyError, which propagates. -/
def loadPeriodGo {α : Type} (tt_omxs : List (String × List (String × α)))
    (period : String) : List String → List (String × α) →
    Except PyErr (List (String × α))
  | [], acc => .ok acc
  | mode :: rest, acc =>
      match pyGet tt_omxs period with
      | .error e => .error e
      | .ok f =>
          match pyGet f mode with
          | .error e => .error e
          | .ok temp => loadPeriodGo tt_omxs period rest (pySet acc mode temp)

/-- Outer loop of `load_trip_tables`: `for period in _all_time_periods`,
filling the inner dict of `retval[period]` (which starts empty). -/
def loadGo {α : Type} (tt_omxs : List (String × List (String × α)))
    (modes : List String) : List String → List (String × List (String × α)) →
    Except PyErr (List (String × List (String × α)))
  | [], retval => .ok retval
  | period :: rest, retval =>
      match loadPeriodGo tt_omxs period modes [] with
      | .error e => .error e
      | .ok inner => loadGo tt_omxs modes rest (pySet retval period inner)

/-- Embedding of `load_trip_tables` (src/modxlib.py lines 74-86).
`modes = None` (here `none`) defaults to `_all_modes`; an explicit list (even
the empty one) is used as given, since Python's `[] == None` is false.
`retval` is initialised to `{ 'am' : {}, 'md' : {}, 'pm' : {}, 'nt' : {} }`. -/
def load_trip_tables {α : Type} (tt_omxs : List (String × List (String × α)))
    (modes : Option (List String)) :
    Except PyErr (List (String × List (String × α))) :=
  let modes2 := match modes with
    | none => _all_modes
    | some l => l
  loadGo tt_omxs modes2 _all_time_periods
    [("am", []), ("md", []), ("pm", []), ("nt", [])]

/-
Section 2 of src/modxlib.py: TAZ "shapefile" management.

A raw DBF record as delivered by dbfread is a dict from field name to value;
numeric DBF columns arrive as Python ints, character columns as strings.
-/

/-- A raw attribute record, as read from the .dbf file. -/
abbrev PyRec : Type := List (String × PyVal)

/-- Model of Python `int(x)` as applied by the constructor to the `id`, `taz`
and `in_brmpo` fields: an int passes through, a numeric string parses, and
anything else raises a ValueError. -/
def pyInt : PyVal → Except PyErr Int
  | .int n => .ok n
  | .str s =>
      match s.toInt? with
      | some n => .ok n
      | none => .error (.valueError "invalid literal for int")

/-- One row of `tazManager._taz_table`: the dict `new` built per record in
`__init__` (src/modxlib.py lines 159-170).  `id`, `taz` and `in_brmpo` pass
through `int(...)`; the remaining fields are stored as read. -/
structure TazRec : Type where
  id : Int
  taz : Int
  type : PyVal
  town : PyVal
  state : PyVal
  town_state : PyVal
  mpo : PyVal
  in_brmpo : Int
  subregion : PyVal
  sector : PyVal
deriving DecidableEq

/-- The ten attribute fields the class documentation requires of the .dbf
file, in the order the constructor reads them. -/
def requiredFields : List String :=
  ["id", "taz", "type", "town", "state", "town_state", "mpo", "in_brmpo",
   "subregion", "sector"]

/-- Embedding of the per-record body of the `__init__` loop
(src/modxlib.py lines 158-171).  Each `record['f']` access raises a KeyError
when the field is absent, and each `int(...)` can raise; the first exception
propagates, exactly as in Python. -/
def parseRecord (record : PyRec) : Except PyErr TazRec :=
  match pyGet record "id" with
  | .error e => .error e
  | .ok idv =>
  match pyInt idv with
  | .error e => .error e
  | .ok idn =>
  match pyGet record "taz" with
  | .error e => .error e
  | .ok tazv =>
  match pyInt tazv with
  | .error e => .error e
  | .ok tazn =>
  match pyGet record "type" with
  | .error e => .error e
  | .ok tyv =>
  match pyGet record "town" with
  | .error e => .error e
  | .ok townv =>
  match pyGet record "state" with
  | .error e => .error e
  | .ok statev =>
  match pyGet record "town_state" with
  | .error e => .error e
  | .ok tsv =>
  match pyGet record "mpo" with
  | .error e => .error e
  | .ok mpov =>
  match pyGet record "in_brmpo" with
  | .error e => .error e
  | .ok ibv =>
  match pyInt ibv with
  | .error e => .error e
  | .ok ibn =>
  match pyGet record "subregion" with
  | .error e => .error e
  | .ok subv =>
  match pyGet record "sector" with
  | .error e => .error e
  | .ok secv =>
      .ok (TazRec.mk idn tazn tyv townv statev tsv mpov ibn subv secv)

/-- Is the field present in the raw record? -/
def fieldPresent (record : PyRec) (f : String) : Bool :=
  match pyLookup record f with
  | some _ => true
  | none => false

/-- Is the field present with a value `int(...)` accepts? -/
def fieldIntOk (record : PyRec) (f : String) : Bool :=
  match pyLookup record f with
  | some v =>
      match pyInt v with
      | .ok _ => true
      | .error _ => false
  | none => false

/-- Decidable well-formedness of a raw record as the constructor consumes it:
all ten required fields present, with the three int-converted fields holding
values `int(...)` accepts. -/
def recordOk (record : PyRec) : Bool :=
  fieldIntOk record "id" && fieldIntOk record "taz" &&
  fieldPresent record "type" && fieldPresent record "town" &&
  fieldPresent record "state" && fieldPresent record "town_state" &&
  fieldPresent record "mpo" && fieldIntOk record "in_brmpo" &&
  fieldPresent record "subregion" && fieldPresent record "sector"

/-- The `for record in dbf_table.records` loop: parse each record in order,
propagating the first exception. -/
def loadRecords : List PyRec → Except PyErr (List TazRec)
  | [] => .ok []
  | r :: rs =>
      match parseRecord r with
      | .error e => .error e
      | .ok a =>
          match loadRecords rs with
          | .error e => .error e
          | .ok rest => .ok (a :: rest)

/-- Embedding of `tazManager.__init__` (src/modxlib.py lines 150-175).

In the source, `_taz_table = []` is a CLASS attribute (line 148), and the loop
does `self._taz_table.append(new)`: the instance has no attribute of its own,
so every construction appends its records onto the one list shared by every
instance of the class.  The parameter `cls` is the shared class-level list as
it stands before this construction; the returned list is the shared list after
it, which is also exactly what any instance (old or new) observes through
`self._taz_table` from then on.  (If a record raises mid-loop the exception
propagates out of the constructor; the records appended before the failure do
stay on the shared list in Python, a partial state no claim here observes.) -/
def tazManagerInit (cls : List TazRec) (records : List PyRec) :
    Except PyErr (List TazRec) :=
  match loadRecords records with
  | .error e => .error e
  | .ok parsed => .ok (cls ++ parsed)

/-- Embedding of `mpo_to_tazes` (line 181): `pydash.collections.filter_`
keeps, in order, the records satisfying the predicate. -/
def mpo_to_tazes (taz_table : List TazRec) (mpo : PyVal) : List TazRec :=
  taz_table.filter (fun x => decide (x.mpo = mpo))

/-- Embedding of `brmpo_tazes` (line 185). -/
def brmpo_tazes (taz_table : List TazRec) : List TazRec :=
  taz_table.filter (fun x => decide (x.in_brmpo = 1))

/-- Embedding of `brmpo_town_to_tazes` (line 189). -/
def brmpo_town_to_tazes (taz_table : List TazRec) (mpo_town : PyVal) : List TazRec :=
  taz_table.filter (fun x => decide (x.in_brmpo = 1 ∧ x.town = mpo_town))

/-- Embedding of `sector_to_tazes` (line 213). -/
def sector_to_tazes (taz_table : List TazRec) (sector : PyVal) : List TazRec :=
  taz_table.filter (fun x => decide (x.sector = sector))

/-- Embedding of `town_to_tazes` (line 218); matches the town regardless of
state. -/
def town_to_tazes (taz_table : List TazRec) (town : PyVal) : List TazRec :=
  taz_table.filter (fun x => decide (x.town = town))

/-- Embedding of `town_state_to_tazes` (line 222); the source tests state
first, then town. -/
def town_state_to_tazes (taz_table : List TazRec) (town state : PyVal) : List TazRec :=
  taz_table.filter (fun x => decide (x.state = state ∧ x.town = town))

/-- Embedding of `state_to_tazes` (line 226). -/
def state_to_tazes (taz_table : List TazRec) (state : PyVal) : List TazRec :=
  taz_table.filter (fun x => decide (x.state = state))

/-- Embedding of `taz_ids` (line 230): project the `id` field, in order. -/
def taz_ids (taz_record_list : List TazRec) : List Int :=
  taz_record_list.map TazRec.id

/-- Does `needle` occur at the head of `hay`? -/
def listStartsWith : List Char → List Char → Bool
  | _, [] => true
  | [], _ :: _ => false
  | a :: as, b :: bs => a = b && listStartsWith as bs

/-- Does `needle` occur as a contiguous sublist of `hay`? -/
def listHasSub : List Char → List Char → Bool
  | [], needle => needle.isEmpty
  | a :: hay, needle => listStartsWith (a :: hay) needle || listHasSub hay needle

/-- Model of Python `x['subregion'].find(s) != -1` for a string-valued field:
substring containment.  (On a non-string value `.find` would raise an
AttributeError; the three branches that use this are unreachable, see
`brmpo_subregion_to_tazes`.) -/
def pyFindHit (v : PyVal) (s : String) : Bool :=
  match v with
  | .str t => listHasSub t.data s.data
  | .int _ => false

/-- The name `subregion` as resolved inside the body of
`brmpo_subregion_to_tazes` (src/modxlib.py lines 193-211): the function's
parameter is `mpo_subregion`, no local variable `subregion` is ever assigned,
and the module's global scope binds no `subregion` either, so the lookup
fails. -/
def moduleVar_subregion : Option PyVal := none

/-- Embedding of `brmpo_subregion_to_tazes` (src/modxlib.py lines 193-211).
The first `if` evaluates the unbound name `subregion`, so every call raises
`NameError: name 'subregion' is not defined` before any filtering happens.
The branches below the `some` arm transcribe the dead code. -/
def brmpo_subregion_to_tazes (taz_table : List TazRec) (mpo_subregion : PyVal) :
    Except PyErr (List TazRec) :=
  match moduleVar_subregion with
  | none => .error (.nameError "subregion")
  | some subregion =>
      if subregion = PyVal.str "ICC" then
        .ok (taz_table.filter (fun x => pyFindHit x.subregion "ICC"))
      else if subregion = PyVal.str "TRIC" then
        .ok (taz_table.filter (fun x => pyFindHit x.subregion "TRIC"))
      else if subregion = PyVal.str "SWAP" then
        .ok (taz_table.filter (fun x => pyFindHit x.subregion "SWAP"))
      else
        .ok (taz_table.filter (fun x => decide (x.subregion = mpo_subregion)))

end Modxlib

namespace Modxlib

/-
Section 3 of src/modxlib.py: miscellaneous utilities for the transit mode.
-/

/-- Embedding of `_mode_to_metamode_mapping_table` (src/modxlib.py lines
246-290), version 0.2.0 of the module.  Keys are unique, so an association
list is a faithful model of the dict. -/
def _mode_to_metamode_mapping_table : List (Int × String) :=
  [ (1, "MBTA Bus - Local Bus"),
    (2, "MBTA Bus - Inner Express Bus"),
    (3, "MBTA Bus - Outer Express Bus"),
    (4, "Green Line"),
    (5, "Red Line"),
    (6, "Mattapan Trolley"),
    (7, "Orange Line"),
    (8, "Blue Line"),
    (9, "Commuter Rail - Fairmount Line"),
    (10, "Ferries - Inner Harbor"),
    (11, "Ferries - Outer Harbor"),
    (12, "Silver Line"),
    (13, "Sliver Line"),
    (14, "Logan Express"),
    (15, "Logan Shuttle"),
    (16, "MGH and Other Shuttles"),
    (17, "RTA Bus - Brockton RTA"),
    (18, "RTA Bus - CATA RTA"),
    (19, "RTA Bus - GATRA RTA"),
    (20, "RTA Bus - Lowell RTA"),
    (21, "RTA Bus - Merrimack RTA"),
    (22, "RTA Bus - MetroWest RTA"),
    (23, "Private Bus - Bloom"),
    (24, "Private Bus - C & J Bus"),
    (25, "Private Bus - Cavalier Bus"),
    (26, "Private Bus - Concord Coach"),
    (27, "Private Bus - Dattco Bus"),
    (28, "Private Bus - Plymouth & Brockton"),
    (29, "Private Bus - Peter Pan"),
    (30, "Private Bus - Yankee"),
    (31, "MBTA Subsidized Bus Routes"),
    (32, "Commuter Rail - Beverly / Newburyport / Rockport Line"),
    (33, "Commuter Rail - Stoughton / Providence Line"),
    (34, "Commuter Rail - Greenbush / Plymouth / Kingston / Middleborough Line"),
    (35, "Commuter Rail - Haverhill Line"),
    (36, "Commuter Rail - Lowell Line"),
    (37, "Commuter Rail - Fitchburg Line"),
    (38, "Commuter Rail - Framingham / Worcester Line"),
    (39, "Commuter Rail - Needham Line"),
    (40, "Commuter Rail - Franklin Line"),
    (41, "RTA Bus - SRTA RTA"),
    (42, "RTA Bus - Worcester RTA"),
    (43, "RTA Bus- Pioneer Valley RTA"),
    (70, "Walk") ]

/-- First-match lookup on an integer-keyed association list, the model of
`mode in table` / `table[mode]` on the mapping dict. -/
def intLookup {α : Type} : List (Int × α) → Int → Option α
  | [], _ => none
  | (k1, v1) :: t, k => if k = k1 then some v1 else intLookup t k

/-- Embedding of `mode_to_metamode` (src/modxlib.py lines 302-308):
`retval = 'None'; if mode in table: return table[mode]; return retval`. -/
def mode_to_metamode (mode : Int) : String :=
  let retval := "None"
  match intLookup _mode_to_metamode_mapping_table mode with
  | some v => v
  | none => retval

/-
The boardings aggregator (src/modxlib.py lines 328-426).

A per-period boardings dataframe is modelled as an association list from the
(ROUTE, STOP) key pair to the record of the nine counter columns.  The three
`pd.merge(..., on=['ROUTE','STOP'], how='outer', ...)` steps each produce, for
every key of either operand, one row carrying both operands' counters
(suffixed); `fillna(0)` zeroes the side that lacked the key; the nine column
sums are then computed and the suffixed columns dropped.  `mergeSum` fuses
those three steps of one merge: one row per key of either operand, carrying
the nine already-summed columns.  Row order of a pandas outer merge (sorted
on the key) is not modelled; no property below depends on row order.
-/

/-- The nine fixed counter columns of a boardings dataframe. -/
structure Counters : Type where
  DirectTransferOff : Int
  DirectTransferOn : Int
  DriveAccessOn : Int
  EgressOff : Int
  Off : Int
  On : Int
  WalkAccessOn : Int
  WalkTransferOff : Int
  WalkTransferOn : Int
deriving DecidableEq

/-- The all-zero counter record, the value `fillna(0)` supplies for a row
that one side of an outer join lacked. -/
def zeroC : Counters := Counters.mk 0 0 0 0 0 0 0 0 0

/-- Column-wise sum of two counter records, one `j['C'] = j['C_x'] + j['C_y']`
line per column. -/
def addC (a b : Counters) : Counters :=
  Counters.mk
    (a.DirectTransferOff + b.DirectTransferOff)
    (a.DirectTransferOn + b.DirectTransferOn)
    (a.DriveAccessOn + b.DriveAccessOn)
    (a.EgressOff + b.EgressOff)
    (a.Off + b.Off)
    (a.On + b.On)
    (a.WalkAccessOn + b.WalkAccessOn)
    (a.WalkTransferOff + b.WalkTransferOff)
    (a.WalkTransferOn + b.WalkTransferOn)

/-- A boardings dataframe: one row per (ROUTE, STOP) key. -/
abbrev BTable : Type := List ((Int × Int) × Counters)

/-- First-match row lookup by (ROUTE, STOP). -/
def blookup : BTable → Int × Int → Option Counters
  | [], _ => none
  | (k1, c) :: t, k => if k = k1 then some c else blookup t k

/-- The (ROUTE, STOP) keys of a table, in row order. -/
def bkeys (t : BTable) : List (Int × Int) :=
  t.map Prod.fst

/-- The counters a table contributes for a key: its row if the key is
present, zero otherwise (the `fillna(0)` of an outer join). -/
def getC (t : BTable) (k : Int × Int) : Counters :=
  (blookup t k).getD zeroC

/-- One `pd.merge(a, b, on=['ROUTE','STOP'], how='outer', ...)` followed by
`fillna(0)`, the nine column sums, and the drop of the suffixed columns:
every key of `a` yields a row summing its counters with `b`'s (zero when `b`
lacks the key), and every key of `b` not in `a` yields a row summing zero
with `b`'s counters. -/
def mergeSum (a b : BTable) : BTable :=
  a.map (fun e => (e.1, addC e.2 (getC b e.1))) ++
    (b.filter (fun e => decide (e.1 ∉ bkeys a))).map
      (fun e => (e.1, addC zeroC e.2))

/-- Steps 1-3 of `calculate_total_daily_boardings`: `j1` joins AM and MD,
`j2` joins PM and NT, and the daily table joins `j1` and `j2`. -/
def dailyOf (am_results md_results pm_results nt_results : BTable) : BTable :=
  let j1 := mergeSum am_results md_results
  let j2 := mergeSum pm_results nt_results
  mergeSum j1 j2

/-- Embedding of `calculate_total_daily_boardings` (src/modxlib.py lines
328-426): read the four period dataframes out of the input dict (a KeyError
propagates if one is absent), build the daily table, and store it under the
new key `'daily'` of the same dict, which is returned. -/
def calculate_total_daily_boardings (boardings_by_tod : List (String × BTable)) :
    Except PyErr (List (String × BTable)) :=
  match pyGet boardings_by_tod "AM" with
  | .error e => .error e
  | .ok am_results =>
  match pyGet boardings_by_tod "MD" with
  | .error e => .error e
  | .ok md_results =>
  match pyGet boardings_by_tod "PM" with
  | .error e => .error e
  | .ok pm_results =>
  match pyGet boardings_by_tod "NT" with
  | .error e => .error e
  | .ok nt_results =>
      .ok (pySet boardings_by_tod "daily"
        (dailyOf am_results md_results pm_results nt_results))

end Modxlib

namespace ModxlibV015

/-
Embedding of src/modxlib/modxlib.py, version 0.1.5, Section 3: the earlier
revision of the metamode mapping table and its resolver.
-/

/-- Embedding of `_mode_to_metamode_mapping_table` (src/modxlib/modxlib.py
lines 212-257), version 0.1.5 of the module. -/
def _mode_to_metamode_mapping_table : List (Int × String) :=
  [ (1, "MBTA_Bus"),
    (2, "MBTA_Bus"),
    (3, "MBTA_Bus"),
    (4, "Light_Rail"),
    (5, "Heavy_Rail"),
    (6, "Heavy_Rail"),
    (7, "Heavy_Rail"),
    (8, "Heavy_Rail"),
    (9, "Commuter_Rail"),
    (10, "Ferry"),
    (11, "Ferry"),
    (12, "Light_Rail"),
    (13, "Light_Rail"),
    (14, "Shuttle_Express"),
    (15, "Shuttle_Express"),
    (16, "Shuttle_Express"),
    (17, "RTA"),
    (18, "RTA"),
    (19, "RTA"),
    (20, "RTA"),
    (21, "RTA"),
    (22, "RTA"),
    (23, "Private"),
    (24, "Private"),
    (25, "Private"),
    (26, "Private"),
    (27, "Private"),
    (28, "Private"),
    (29, "Private"),
    (30, "Private"),
    (31, "Private"),
    (32, "Commuter_Rail"),
    (33, "Commuter_Rail"),
    (34, "Commuter_Rail"),
    (35, "Commuter_Rail"),
    (36, "Commuter_Rail"),
    (37, "Commuter_Rail"),
    (38, "Commuter_Rail"),
    (39, "Commuter_Rail"),
    (40, "Commuter_Rail"),
    (41, "Commuter_Rail"),
    (42, "Commuter_Rail"),
    (43, "Commuter_Rail"),
    (44, "Commuter_Rail"),
    (70, "Walk") ]

/-- Embedding of `mode_to_metamode` (src/modxlib/modxlib.py lines 269-275).
The body is `retval = 'None'; if mode in table: return table(mode); return
retval` — note the parentheses: for a mode that IS in the table it calls the
dict as a function, raising `TypeError: 'dict' object is not callable`; only
a mode absent from the table reaches the sentinel return. -/
def mode_to_metamode (mode : Int) : Except PyErr String :=
  let retval := "None"
  match Modxlib.intLookup _mode_to_metamode_mapping_table mode with
  | some _ => .error (.typeError "dict object is not callable")
  | none => .ok retval

end ModxlibV015

/-
Concrete sample data used by witness and counterexample theorems.
-/

namespace Samples

open Modxlib

/-- A counter record that is zero except for the `On` column, as in the
boardings example of the specification. -/
def onOnly (n : Int) : Counters := Counters.mk 0 0 0 0 0 n 0 0 0

/-- AM boardings: route 1 stop 10 with On = 5. -/
def exAM : BTable := [((1, 10), onOnly 5)]

/-- MD boardings: (1,10) with On = 3 and (2,20) with On = 7. -/
def exMD : BTable := [((1, 10), onOnly 3), ((2, 20), onOnly 7)]

/-- PM boardings: empty. -/
def exPM : BTable := []

/-- NT boardings: (2,20) with On = 1. -/
def exNT : BTable := [((2, 20), onOnly 1)]

/-- The four-period input dict for the aggregator. -/
def exTod : List (String × BTable) :=
  [("AM", exAM), ("MD", exMD), ("PM", exPM), ("NT", exNT)]

/-- A raw DBF record carrying all ten required fields. -/
def rawRec1 : PyRec :=
  [ ("id", .int 1), ("taz", .int 101), ("type", .str "I"),
    ("town", .str "BOSTON"), ("state", .str "MA"),
    ("town_state", .str "BOSTON, MA"), ("mpo", .str "BRMPO"),
    ("in_brmpo", .int 1), ("subregion", .str "ICC/TRIC"),
    ("sector", .str "Central") ]

/-- A second raw record, from a different source. -/
def rawRec2 : PyRec :=
  [ ("id", .int 2), ("taz", .int 202), ("type", .str "I"),
    ("town", .str "WORCESTER"), ("state", .str "MA"),
    ("town_state", .str "WORCESTER, MA"), ("mpo", .str "CMRPC"),
    ("in_brmpo", .int 0), ("subregion", .str ""),
    ("sector", .str "") ]

/-- A raw record whose schema lacks the `id` field. -/
def rawRecNoId : PyRec :=
  [ ("taz", .int 303), ("type", .str "I"),
    ("town", .str "SALEM"), ("state", .str "MA"),
    ("town_state", .str "SALEM, MA"), ("mpo", .str "BRMPO"),
    ("in_brmpo", .int 1), ("subregion", .str "NSPC"),
    ("sector", .str "Northeast") ]

/-- The parsed form of `rawRec1`. -/
def taz1 : TazRec :=
  TazRec.mk 1 101 (.str "I") (.str "BOSTON") (.str "MA") (.str "BOSTON, MA")
    (.str "BRMPO") 1 (.str "ICC/TRIC") (.str "Central")

/-- The parsed form of `rawRec2`. -/
def taz2 : TazRec :=
  TazRec.mk 2 202 (.str "I") (.str "WORCESTER") (.str "MA") (.str "WORCESTER, MA")
    (.str "CMRPC") 0 (.str "") (.str "")

/-- A small TAZ table holding the two parsed records. -/
def sampleTazTable : List TazRec := [taz1, taz2]

/-- A trip-table input: each period's open file holds one matrix named SOV
(matrices modelled as integers here). -/
def exOmxs : List (String × List (String × Int)) :=
  [ ("am", [("SOV", 11)]), ("md", [("SOV", 12)]),
    ("pm", [("SOV", 13)]), ("nt", [("SOV", 14)]) ]

end Samples

/-
Helper lemmas about the dictionary model.
-/

theorem pyLookup_pySet_self {α : Type} (d : List (String × α)) (k : String) (v : α) :
    pyLookup (pySet d k v) k = some v := by
  induction d with
  | nil => simp [pySet, pyLookup]
  | cons hd t ih =>
      obtain ⟨k1, v1⟩ := hd
      by_cases h : k = k1
      · simp [pySet, h, pyLookup]
      · simp [pySet, pyLookup, h, ih]

theorem pyLookup_pySet_ne {α : Type} (d : List (String × α)) (k k2 : String) (v : α)
    (h : k2 ≠ k) : pyLookup (pySet d k v) k2 = pyLookup d k2 := by
  induction d with
  | nil => simp [pySet, pyLookup, h]
  | cons hd t ih =>
      obtain ⟨k1, v1⟩ := hd
      by_cases h1 : k = k1
      · subst h1
        simp [pySet, pyLookup, h]
      · by_cases h2 : k2 = k1
        · simp [pySet, pyLookup, h1, h2]
        · simp [pySet, pyLookup, h1, h2, ih]

theorem pyGet_pySet_self {α : Type} (d : List (String × α)) (k : String) (v : α) :
    pyGet (pySet d k v) k = .ok v := by
  simp [pyGet, pyLookup_pySet_self]

theorem pyGet_pySet_ne {α : Type} (d : List (String × α)) (k k2 : String) (v : α)
    (h : k2 ≠ k) : pyGet (pySet d k v) k2 = pyGet d k2 := by
  simp [pyGet, pyLookup_pySet_ne d k k2 v h]

theorem dictKeys_pySet_mem {α : Type} (d : List (String × α)) (k : String) (v : α)
    (hmem : k ∈ dictKeys d) : dictKeys (pySet d k v) = dictKeys d := by
  induction d with
  | nil => simp [dictKeys] at hmem
  | cons hd t ih =>
      obtain ⟨k1, v1⟩ := hd
      by_cases h1 : k = k1
      · simp [pySet, h1, dictKeys]
      · simp only [dictKeys, List.map_cons, List.mem_cons] at hmem
        rcases hmem with hmem | hmem
        · exact absurd hmem h1
        · simp only [pySet, if_neg h1, dictKeys, List.map_cons, List.cons.injEq, true_and]
          exact ih hmem

theorem dictKeys_pySet_not_mem {α : Type} (d : List (String × α)) (k : String) (v : α)
    (hmem : k ∉ dictKeys d) : dictKeys (pySet d k v) = dictKeys d ++ [k] := by
  induction d with
  | nil => simp [pySet, dictKeys]
  | cons hd t ih =>
      obtain ⟨k1, v1⟩ := hd
      simp only [dictKeys, List.map_cons, List.mem_cons, not_or] at hmem
      simp only [pySet, if_neg hmem.1, dictKeys, List.map_cons, List.cons_append,
        List.cons.injEq, true_and]
      exact ih hmem.2

theorem pyLookup_eq_none_iff {α : Type} (d : List (String × α)) (k : String) :
    pyLookup d k = none ↔ k ∉ dictKeys d := by
  induction d with
  | nil => simp [pyLookup, dictKeys]
  | cons hd t ih =>
      obtain ⟨k1, v1⟩ := hd
      by_cases h : k = k1
      · simp [pyLookup, dictKeys, h]
      · simp [pyLookup, dictKeys, h, ih]

/-
Helper lemmas about the boardings tables and mergeSum.
-/

namespace Modxlib

theorem blookup_eq_none_iff (t : BTable) (k : Int × Int) :
    blookup t k = none ↔ k ∉ bkeys t := by
  induction t with
  | nil => simp [blookup, bkeys]
  | cons hd t ih =>
      obtain ⟨k1, c1⟩ := hd
      by_cases h : k = k1
      · simp [blookup, bkeys, h]
      · simp [blookup, bkeys, h, ih]

theorem blookup_append (t1 t2 : BTable) (k : Int × Int) :
    blookup (t1 ++ t2) k =
      match blookup t1 k with
      | some c => some c
      | none => blookup t2 k := by
  induction t1 with
  | nil => simp [blookup]
  | cons hd t ih =>
      obtain ⟨k1, c1⟩ := hd
      by_cases h : k = k1
      · simp [blookup, h]
      · simpa [blookup, h] using ih

theorem blookup_mergeLeft (a b : BTable) (k : Int × Int) :
    blookup (a.map (fun e => (e.1, addC e.2 (getC b e.1)))) k =
      (blookup a k).map (fun c => addC c (getC b k)) := by
  induction a with
  | nil => simp [blookup]
  | cons hd t ih =>
      obtain ⟨k1, c1⟩ := hd
      by_cases h : k = k1
      · subst h
        simp [blookup]
      · simpa [blookup, h] using ih

theorem blookup_zeroMap (t : BTable) (k : Int × Int) :
    blookup (t.map (fun e => (e.1, addC zeroC e.2))) k =
      (blookup t k).map (fun c => addC zeroC c) := by
  induction t with
  | nil => simp [blookup]
  | cons hd t ih =>
      obtain ⟨k1, c1⟩ := hd
      by_cases h : k = k1
      · subst h
        simp [blookup]
      · simpa [blookup, h] using ih

theorem bkeys_mergeLeft (a b : BTable) :
    bkeys (a.map (fun e => (e.1, addC e.2 (getC b e.1)))) = bkeys a := by
  simp [bkeys, List.map_map, Function.comp_def]

theorem bkeys_zeroMap (t : BTable) :
    bkeys (t.map (fun e => (e.1, addC zeroC e.2))) = bkeys t := by
  simp [bkeys, List.map_map, Function.comp_def]

theorem bkeys_append (t1 t2 : BTable) :
    bkeys (t1 ++ t2) = bkeys t1 ++ bkeys t2 := by
  simp [bkeys]

theorem blookup_filter_not_mem (a b : BTable) (k : Int × Int)
    (ha : k ∉ bkeys a) :
    blookup (b.filter (fun e => decide (e.1 ∉ bkeys a))) k = blookup b k := by
  induction b with
  | nil => simp [blookup]
  | cons hd t ih =>
      obtain ⟨k1, c1⟩ := hd
      by_cases h : k = k1
      · subst h
        simp [List.filter_cons, ha, blookup]
      · by_cases hp : k1 ∈ bkeys a
        · simpa [List.filter_cons, hp, blookup, h] using ih
        · simpa [List.filter_cons, hp, blookup, h] using ih

theorem mem_bkeys_filter_not_mem (a b : BTable) (k : Int × Int) :
    k ∈ bkeys (b.filter (fun e => decide (e.1 ∉ bkeys a))) ↔
      k ∈ bkeys b ∧ k ∉ bkeys a := by
  simp only [bkeys, List.mem_map]
  constructor
  · rintro ⟨e, he, hek⟩
    rw [List.mem_filter] at he
    refine ⟨⟨e, he.1, hek⟩, ?_⟩
    have := he.2
    simp only [decide_eq_true_eq] at this
    exact hek ▸ this
  · rintro ⟨⟨e, he, hek⟩, hka⟩
    exact ⟨e, List.mem_filter.mpr ⟨he, by simp [hek ▸ hka]⟩, hek⟩

theorem bkeys_mergeSum (a b : BTable) :
    bkeys (mergeSum a b) =
      bkeys a ++ bkeys (b.filter (fun e => decide (e.1 ∉ bkeys a))) := by
  unfold mergeSum
  rw [bkeys_append, bkeys_mergeLeft, bkeys_zeroMap]

theorem mem_bkeys_mergeSum (a b : BTable) (k : Int × Int) :
    k ∈ bkeys (mergeSum a b) ↔ k ∈ bkeys a ∨ k ∈ bkeys b := by
  rw [bkeys_mergeSum, List.mem_append, mem_bkeys_filter_not_mem]
  by_cases ha : k ∈ bkeys a <;> simp [ha]

theorem bkeys_mergeSum_nodup (a b : BTable)
    (ha : (bkeys a).Nodup) (hb : (bkeys b).Nodup) :
    (bkeys (mergeSum a b)).Nodup := by
  rw [bkeys_mergeSum]
  refine List.Nodup.append ha ?_ ?_
  · have hsub : (b.filter (fun e => decide (e.1 ∉ bkeys a))).Sublist b :=
      List.filter_sublist b
    exact hb.sublist (hsub.map Prod.fst)
  · intro k hk1 hk2
    exact ((mem_bkeys_filter_not_mem a b k).mp hk2).2 hk1

theorem blookup_mergeSum (a b : BTable) (k : Int × Int)
    (h : k ∈ bkeys a ∨ k ∈ bkeys b) :
    blookup (mergeSum a b) k = some (addC (getC a k) (getC b k)) := by
  unfold mergeSum
  rw [blookup_append, blookup_mergeLeft]
  by_cases ha : k ∈ bkeys a
  · obtain ⟨c, hc⟩ : ∃ c, blookup a k = some c := by
      cases hcase : blookup a k with
      | none => exact absurd ((blookup_eq_none_iff a k).mp hcase) (not_not.mpr ha)
      | some c => exact ⟨c, rfl⟩
    simp [hc, getC]
  · have hnone : blookup a k = none := (blookup_eq_none_iff a k).mpr ha
    have hb : k ∈ bkeys b := by tauto
    obtain ⟨c, hc⟩ : ∃ c, blookup b k = some c := by
      cases hcase : blookup b k with
      | none => exact absurd ((blookup_eq_none_iff b k).mp hcase) (not_not.mpr hb)
      | some c => exact ⟨c, rfl⟩
    rw [hnone]
    simp only [Option.map]
    rw [blookup_zeroMap, blookup_filter_not_mem a b k ha]
    simp [hc, getC, hnone]

end Modxlib

/-
Helper lemmas about record parsing and the constructor loop.
-/

theorem pyGet_ok_iff {α : Type} (d : List (String × α)) (k : String) (v : α) :
    pyGet d k = .ok v ↔ pyLookup d k = some v := by
  unfold pyGet
  cases h : pyLookup d k <;> simp

namespace Modxlib

theorem exists_ok_of_fieldPresent (record : PyRec) (f : String)
    (h : fieldPresent record f = true) : ∃ v, pyGet record f = .ok v := by
  unfold fieldPresent at h
  cases hv : pyLookup record f with
  | none => rw [hv] at h; exact absurd h (by simp)
  | some v => exact ⟨v, by simp [pyGet, hv]⟩

theorem exists_ok_of_fieldIntOk (record : PyRec) (f : String)
    (h : fieldIntOk record f = true) :
    ∃ v n, pyGet record f = .ok v ∧ pyInt v = .ok n := by
  unfold fieldIntOk at h
  cases hv : pyLookup record f with
  | none => rw [hv] at h; exact absurd h (by simp)
  | some v =>
      rw [hv] at h
      have h2 : (match pyInt v with
          | Except.ok _ => true
          | Except.error _ => false) = true := h
      cases hn : pyInt v with
      | error e => rw [hn] at h2; exact absurd h2 (by simp)
      | ok n => exact ⟨v, n, by simp [pyGet, hv], hn⟩

theorem parseRecord_ok_of_recordOk (record : PyRec) (h : recordOk record = true) :
    ∃ a, parseRecord record = .ok a := by
  simp only [recordOk, Bool.and_eq_true] at h
  obtain ⟨⟨⟨⟨⟨⟨⟨⟨⟨h1, h2⟩, h3⟩, h4⟩, h5⟩, h6⟩, h7⟩, h8⟩, h9⟩, h10⟩ := h
  obtain ⟨v1, n1, hg1, hi1⟩ := exists_ok_of_fieldIntOk record "id" h1
  obtain ⟨v2, n2, hg2, hi2⟩ := exists_ok_of_fieldIntOk record "taz" h2
  obtain ⟨v3, hg3⟩ := exists_ok_of_fieldPresent record "type" h3
  obtain ⟨v4, hg4⟩ := exists_ok_of_fieldPresent record "town" h4
  obtain ⟨v5, hg5⟩ := exists_ok_of_fieldPresent record "state" h5
  obtain ⟨v6, hg6⟩ := exists_ok_of_fieldPresent record "town_state" h6
  obtain ⟨v7, hg7⟩ := exists_ok_of_fieldPresent record "mpo" h7
  obtain ⟨v8, n8, hg8, hi8⟩ := exists_ok_of_fieldIntOk record "in_brmpo" h8
  obtain ⟨v9, hg9⟩ := exists_ok_of_fieldPresent record "subregion" h9
  obtain ⟨v10, hg10⟩ := exists_ok_of_fieldPresent record "sector" h10
  exact ⟨TazRec.mk n1 n2 v3 v4 v5 v6 v7 n8 v9 v10,
    by simp [parseRecord, hg1, hi1, hg2, hi2, hg3, hg4, hg5, hg6, hg7, hg8,
      hi8, hg9, hg10]⟩

theorem recordOk_of_parseRecord_ok (record : PyRec) (a : TazRec)
    (h : parseRecord record = .ok a) : recordOk record = true := by
  unfold parseRecord at h
  repeat' split at h
  all_goals simp_all [recordOk, fieldIntOk, fieldPresent, pyGet_ok_iff]

theorem parseRecord_missing_id (record : PyRec)
    (h : pyLookup record "id" = none) :
    parseRecord record = .error (.keyError "id") := by
  simp [parseRecord, pyGet, h]

theorem loadRecords_ok_of_all (records : List PyRec)
    (h : ∀ r ∈ records, recordOk r = true) :
    ∃ ts, loadRecords records = .ok ts := by
  induction records with
  | nil => exact ⟨[], rfl⟩
  | cons r rs ih =>
      obtain ⟨a, ha⟩ := parseRecord_ok_of_recordOk r (h r (by simp))
      obtain ⟨ts, hts⟩ := ih (fun r2 hr2 => h r2 (by simp [hr2]))
      exact ⟨a :: ts, by simp [loadRecords, ha, hts]⟩

theorem loadRecords_all_ok (records : List PyRec) (ts : List TazRec)
    (h : loadRecords records = .ok ts) :
    ∀ r ∈ records, ∃ a, parseRecord r = .ok a := by
  induction records generalizing ts with
  | nil => simp
  | cons r rs ih =>
      unfold loadRecords at h
      cases hp : parseRecord r with
      | error e => rw [hp] at h; exact absurd h (by simp)
      | ok a =>
          rw [hp] at h
          cases hrest : loadRecords rs with
          | error e => rw [hrest] at h; exact absurd h (by simp)
          | ok rest =>
              intro r2 hr2
              rcases List.mem_cons.mp hr2 with h2 | h2
              · exact ⟨a, h2 ▸ hp⟩
              · exact ih rest hrest r2 h2

theorem loadRecords_head_error (r : PyRec) (rs : List PyRec) (e : PyErr)
    (h : parseRecord r = .error e) : loadRecords (r :: rs) = .error e := by
  simp [loadRecords, h]

/-
Helper lemmas about the load_trip_tables loops.
-/

theorem loadPeriodGo_ok {α : Type} (tt_omxs : List (String × List (String × α)))
    (period : String) (f : List (String × α)) (hf : pyGet tt_omxs period = .ok f) :
    ∀ (ms : List String) (acc : List (String × α)),
      ms.Nodup → (∀ m ∈ ms, ∃ v, pyGet f m = .ok v) →
      (∀ m ∈ ms, m ∉ dictKeys acc) →
      ∃ inner, loadPeriodGo tt_omxs period ms acc = .ok inner ∧
        dictKeys inner = dictKeys acc ++ ms := by
  intro ms
  induction ms with
  | nil => exact fun acc _ _ _ => ⟨acc, rfl, by simp⟩
  | cons m rest ih =>
      intro acc hnd hget hacc
      obtain ⟨v, hv⟩ := hget m (by simp)
      have hstep : loadPeriodGo tt_omxs period (m :: rest) acc =
          loadPeriodGo tt_omxs period rest (pySet acc m v) := by
        simp [loadPeriodGo, hf, hv]
      have hkeys : dictKeys (pySet acc m v) = dictKeys acc ++ [m] :=
        dictKeys_pySet_not_mem acc m v (hacc m (by simp))
      obtain ⟨inner, hrun, hik⟩ := ih (pySet acc m v) (List.Nodup.of_cons hnd)
        (fun m2 hm2 => hget m2 (by simp [hm2]))
        (fun m2 hm2 => by
          rw [hkeys]
          simp only [List.mem_append, List.mem_singleton, not_or]
          exact ⟨hacc m2 (by simp [hm2]),
            fun hcon => (List.nodup_cons.mp hnd).1 (hcon ▸ hm2)⟩)
      refine ⟨inner, hstep ▸ hrun, ?_⟩
      rw [hik, hkeys]
      simp

theorem loadGo_ok {α : Type} (tt_omxs : List (String × List (String × α)))
    (modes : List String) (hmodes : modes.Nodup) :
    ∀ (ps : List String) (retval : List (String × List (String × α))),
      ps.Nodup →
      (∀ p ∈ ps, p ∈ dictKeys retval) →
      (∀ p ∈ ps, ∃ f, pyGet tt_omxs p = .ok f ∧ ∀ m ∈ modes, ∃ v, pyGet f m = .ok v) →
      ∃ d, loadGo tt_omxs modes ps retval = .ok d ∧
        dictKeys d = dictKeys retval ∧
        (∀ p ∈ ps, ∃ inner, pyGet d p = .ok inner ∧ dictKeys inner = modes) ∧
        (∀ p, p ∉ ps → pyGet d p = pyGet retval p) := by
  intro ps
  induction ps with
  | nil => exact fun retval _ _ _ => ⟨retval, rfl, rfl, by simp, fun _ _ => rfl⟩
  | cons p rest ih =>
      intro retval hnd hkeys hget
      obtain ⟨f, hf, hfm⟩ := hget p (by simp)
      obtain ⟨inner, hinner, hik⟩ :=
        loadPeriodGo_ok tt_omxs p f hf modes [] hmodes hfm (by simp [dictKeys])
      have hik2 : dictKeys inner = modes := by simpa [dictKeys] using hik
      have hstep : loadGo tt_omxs modes (p :: rest) retval =
          loadGo tt_omxs modes rest (pySet retval p inner) := by
        simp [loadGo, hinner]
      have hrkeys : dictKeys (pySet retval p inner) = dictKeys retval :=
        dictKeys_pySet_mem retval p inner (hkeys p (by simp))
      obtain ⟨d, hd, hdk, hdin, hdout⟩ := ih (pySet retval p inner)
        (List.Nodup.of_cons hnd)
        (fun q hq => hrkeys ▸ hkeys q (by simp [hq]))
        (fun q hq => hget q (by simp [hq]))
      refine ⟨d, hstep ▸ hd, by rw [hdk, hrkeys], ?_, ?_⟩
      · intro q hq
        rcases List.mem_cons.mp hq with h2 | h2
        · subst h2
          have hnp : q ∉ rest := (List.nodup_cons.mp hnd).1
          rw [hdout q hnp, pyGet_pySet_self]
          exact ⟨inner, rfl, hik2⟩
        · exact hdin q h2
      · intro q hq
        simp only [List.mem_cons, not_or] at hq
        rw [hdout q hq.2, pyGet_pySet_ne retval p q inner hq.1]
end Modxlib

namespace Modxlib

theorem addC_zeroC_zeroC : addC zeroC zeroC = zeroC := by
  simp [addC, zeroC]

theorem getC_mergeSum (a b : BTable) (k : Int × Int) :
    getC (mergeSum a b) k = addC (getC a k) (getC b k) := by
  by_cases h : k ∈ bkeys a ∨ k ∈ bkeys b
  · simp [getC, blookup_mergeSum a b k h]
  · push_neg at h
    have hna : blookup a k = none := (blookup_eq_none_iff a k).mpr h.1
    have hnb : blookup b k = none := (blookup_eq_none_iff b k).mpr h.2
    have hnm : blookup (mergeSum a b) k = none := by
      rw [blookup_eq_none_iff, mem_bkeys_mergeSum]
      tauto
    simp [getC, hna, hnb, hnm, addC_zeroC_zeroC]

/-- A predicate-scan accessor built as `List.filter` is sound (everything
returned satisfies the predicate), complete (everything in the table that
satisfies the predicate is returned) and order-preserving (the result is a
sublist of the table). -/
theorem filter_scan_spec (t : List TazRec) (p : TazRec → Prop) [DecidablePred p] :
    (∀ x ∈ t.filter (fun x => decide (p x)), p x) ∧
    (∀ x ∈ t, p x → x ∈ t.filter (fun x => decide (p x))) ∧
    (t.filter (fun x => decide (p x))).Sublist t :=
  ⟨fun x hx => of_decide_eq_true (List.mem_filter.mp hx).2,
   fun x hx hp => List.mem_filter.mpr ⟨hx, decide_eq_true hp⟩,
   List.filter_sublist t⟩

end Modxlib

open Modxlib Samples in
/-- C1: for all four per-period boardings tables keyed by (ROUTE, STOP) (keys
unique within each table), the daily table built by
`calculate_total_daily_boardings` (its `dailyOf` core) has no duplicate keys,
contains a (ROUTE, STOP) pair exactly when some period contains it, and maps
each pair to the column-wise sum of the four periods' counters, a period
lacking the pair contributing the zero record (not null). -/
theorem C1_daily_boardings_correct
    (am_results md_results pm_results nt_results : BTable)
    (ham : (bkeys am_results).Nodup) (hmd : (bkeys md_results).Nodup)
    (hpm : (bkeys pm_results).Nodup) (hnt : (bkeys nt_results).Nodup) :
    (bkeys (dailyOf am_results md_results pm_results nt_results)).Nodup ∧
    (∀ k, k ∈ bkeys (dailyOf am_results md_results pm_results nt_results) ↔
      k ∈ bkeys am_results ∨ k ∈ bkeys md_results ∨
      k ∈ bkeys pm_results ∨ k ∈ bkeys nt_results) ∧
    (∀ k, k ∈ bkeys (dailyOf am_results md_results pm_results nt_results) →
      blookup (dailyOf am_results md_results pm_results nt_results) k =
        some (addC (addC (getC am_results k) (getC md_results k))
                   (addC (getC pm_results k) (getC nt_results k)))) := by
  have hj1 : (bkeys (mergeSum am_results md_results)).Nodup :=
    bkeys_mergeSum_nodup am_results md_results ham hmd
  have hj2 : (bkeys (mergeSum pm_results nt_results)).Nodup :=
    bkeys_mergeSum_nodup pm_results nt_results hpm hnt
  refine ⟨bkeys_mergeSum_nodup _ _ hj1 hj2, ?_, ?_⟩
  · intro k
    rw [dailyOf, mem_bkeys_mergeSum, mem_bkeys_mergeSum, mem_bkeys_mergeSum]
    tauto
  · intro k hk
    rw [dailyOf] at hk ⊢
    rw [mem_bkeys_mergeSum] at hk
    rw [blookup_mergeSum _ _ k hk, getC_mergeSum, getC_mergeSum]

open Modxlib Samples in
/-- Witness for C1: the specification's own example, AM = {(1,10): On 5},
MD = {(1,10): On 3, (2,20): On 7}, PM = {}, NT = {(2,20): On 1}; the daily
table is exactly the rows (1,10) and (2,20), each with On = 8. -/
theorem C1_daily_boardings_correct_witness :
    (bkeys (dailyOf exAM exMD exPM exNT)).Nodup ∧
    blookup (dailyOf exAM exMD exPM exNT) (1, 10) = some (onOnly 8) ∧
    blookup (dailyOf exAM exMD exPM exNT) (2, 20) = some (onOnly 8) ∧
    bkeys (dailyOf exAM exMD exPM exNT) = [(1, 10), (2, 20)] :=
  ⟨(C1_daily_boardings_correct exAM exMD exPM exNT
      (by decide) (by decide) (by decide) (by decide)).1,
   by decide, by decide, by decide⟩

open Modxlib Samples in
/-- C2 (evaluation at the failing input): `_taz_table` is a class attribute,
so construction appends to one list shared by every instance.  Starting from
a fresh class (empty shared list), building a first manager from a one-record
source leaves the shared list - what that instance reads through
`self._taz_table` - equal to `[taz1]`; building a second manager from a
different one-record source then extends the same shared list to
`[taz1, taz2]`, which is what the FIRST instance now observes, refuting the
claimed per-instance isolation. -/
theorem C2_shared_class_table_eval :
    tazManagerInit [] [rawRec1] = .ok [taz1] ∧
    tazManagerInit [taz1] [rawRec2] = .ok [taz1, taz2] ∧
    [taz1, taz2] ≠ [taz1] :=
  ⟨rfl, rfl, by decide⟩

open Modxlib Samples in
/-- C3 (evaluation at the failing input): for any base directory (here the
empty prefix), the handle stored under the `'md'` key of the dict returned by
`open_trip_tables` was opened from the PM file, not the MD file, while the
other three keys get their own period's file. -/
theorem C3_open_trip_tables_eval :
    pyGet (open_trip_tables "") "md" =
      .ok (OmxFile.mk "AfterSC_Final_PM_Tables.omx" "r") ∧
    pyGet (open_trip_tables "") "am" =
      .ok (OmxFile.mk "AfterSC_Final_AM_Tables.omx" "r") ∧
    pyGet (open_trip_tables "") "pm" =
      .ok (OmxFile.mk "AfterSC_Final_PM_Tables.omx" "r") ∧
    pyGet (open_trip_tables "") "nt" =
      .ok (OmxFile.mk "AfterSC_Final_NT_Tables.omx" "r") ∧
    "AfterSC_Final_PM_Tables.omx" ≠ "AfterSC_Final_MD_Tables.omx" :=
  ⟨rfl, rfl, rfl, rfl, by decide⟩

open Modxlib Samples in
/-- C4 (evaluation at the failing input): every call to
`brmpo_subregion_to_tazes` evaluates the unbound name `subregion` (the
parameter is `mpo_subregion`) and so raises a NameError instead of returning
any filtered record list; shown here for the reserved code 'ICC' on a
two-record table. -/
theorem C4_brmpo_subregion_raises :
    brmpo_subregion_to_tazes sampleTazTable (PyVal.str "ICC") =
      .error (.nameError "subregion") := rfl

/-- C5 (evaluation at the failing input): in revision 0.1.5 the mapping table
maps mode 1 to 'MBTA_Bus', yet `mode_to_metamode 1` raises a TypeError
because the body calls the dict (`table(mode)`) instead of subscripting it;
revision 0.2.0 behaves as the claim states, returning the mapped label for a
present code and the sentinel "None" for an absent one (9999). -/
theorem C5_mode_to_metamode_eval :
    Modxlib.intLookup ModxlibV015._mode_to_metamode_mapping_table 1 =
      some "MBTA_Bus" ∧
    ModxlibV015.mode_to_metamode 1 =
      .error (.typeError "dict object is not callable") ∧
    Modxlib.mode_to_metamode 1 = "MBTA Bus - Local Bus" ∧
    Modxlib.mode_to_metamode 9999 = "None" :=
  ⟨rfl, rfl, rfl, rfl⟩

/-- C6: the metamode mapping tables of the two revisions are not
extensionally equal: mode 44 is mapped by the 0.1.5 table (to
'Commuter_Rail') but absent from the 0.2.0 table. -/
theorem C6_metamode_tables_differ :
    ∃ mode : Int,
      Modxlib.intLookup Modxlib._mode_to_metamode_mapping_table mode ≠
      Modxlib.intLookup ModxlibV015._mode_to_metamode_mapping_table mode :=
  ⟨44, by decide⟩

open Modxlib in
/-- C7: each of the seven working filter accessors (by MPO, by Boston Region
MPO membership, by membership-and-town, by sector, by town, by town-and-state,
by state) is sound (every returned record satisfies the accessor's predicate),
complete (every table record satisfying the predicate is returned) and
order-preserving (the result is a sublist of the table, hence in table
order). -/
theorem C7_filter_accessors (t : List TazRec)
    (mpo mpo_town sector town town2 state2 state : PyVal) :
    ((∀ x ∈ mpo_to_tazes t mpo, x.mpo = mpo) ∧
     (∀ x ∈ t, x.mpo = mpo → x ∈ mpo_to_tazes t mpo) ∧
     (mpo_to_tazes t mpo).Sublist t) ∧
    ((∀ x ∈ brmpo_tazes t, x.in_brmpo = 1) ∧
     (∀ x ∈ t, x.in_brmpo = 1 → x ∈ brmpo_tazes t) ∧
     (brmpo_tazes t).Sublist t) ∧
    ((∀ x ∈ brmpo_town_to_tazes t mpo_town, x.in_brmpo = 1 ∧ x.town = mpo_town) ∧
     (∀ x ∈ t, x.in_brmpo = 1 ∧ x.town = mpo_town → x ∈ brmpo_town_to_tazes t mpo_town) ∧
     (brmpo_town_to_tazes t mpo_town).Sublist t) ∧
    ((∀ x ∈ sector_to_tazes t sector, x.sector = sector) ∧
     (∀ x ∈ t, x.sector = sector → x ∈ sector_to_tazes t sector) ∧
     (sector_to_tazes t sector).Sublist t) ∧
    ((∀ x ∈ town_to_tazes t town, x.town = town) ∧
     (∀ x ∈ t, x.town = town → x ∈ town_to_tazes t town) ∧
     (town_to_tazes t town).Sublist t) ∧
    ((∀ x ∈ town_state_to_tazes t town2 state2, x.state = state2 ∧ x.town = town2) ∧
     (∀ x ∈ t, x.state = state2 ∧ x.town = town2 → x ∈ town_state_to_tazes t town2 state2) ∧
     (town_state_to_tazes t town2 state2).Sublist t) ∧
    ((∀ x ∈ state_to_tazes t state, x.state = state) ∧
     (∀ x ∈ t, x.state = state → x ∈ state_to_tazes t state) ∧
     (state_to_tazes t state).Sublist t) :=
  ⟨filter_scan_spec t (fun x => x.mpo = mpo),
   filter_scan_spec t (fun x => x.in_brmpo = 1),
   filter_scan_spec t (fun x => x.in_brmpo = 1 ∧ x.town = mpo_town),
   filter_scan_spec t (fun x => x.sector = sector),
   filter_scan_spec t (fun x => x.town = town),
   filter_scan_spec t (fun x => x.state = state2 ∧ x.town = town2),
   filter_scan_spec t (fun x => x.state = state)⟩

open Modxlib Samples in
/-- Witness for C7: on the two-record sample table, the record for Boston is
returned by the town accessor; derived from `C7_filter_accessors`'s
completeness conjunct at concrete inputs. -/
theorem C7_filter_accessors_witness :
    taz1 ∈ town_to_tazes sampleTazTable (PyVal.str "BOSTON") := by
  have h := C7_filter_accessors sampleTazTable (PyVal.str "BRMPO")
    (PyVal.str "BOSTON") (PyVal.str "Central") (PyVal.str "BOSTON")
    (PyVal.str "BOSTON") (PyVal.str "MA") (PyVal.str "MA")
  exact h.2.2.2.2.1.2.1 taz1 (by decide) (by decide)

open Modxlib in
/-- C8: `calculate_total_daily_boardings` leaves the four per-period datasets
untouched: whenever the input dict holds the keys 'AM', 'MD', 'PM', 'NT' (and
no 'daily' yet), the returned dict holds exactly the same four datasets under
those keys, and its only addition is the new 'daily' key, holding the daily
table. -/
theorem C8_calculate_total_daily_boardings_frame
    (boardings_by_tod : List (String × BTable)) (am md pm nt : BTable)
    (hAM : pyGet boardings_by_tod "AM" = .ok am)
    (hMD : pyGet boardings_by_tod "MD" = .ok md)
    (hPM : pyGet boardings_by_tod "PM" = .ok pm)
    (hNT : pyGet boardings_by_tod "NT" = .ok nt)
    (hnew : "daily" ∉ dictKeys boardings_by_tod) :
    ∃ d2, calculate_total_daily_boardings boardings_by_tod = .ok d2 ∧
      pyGet d2 "AM" = .ok am ∧ pyGet d2 "MD" = .ok md ∧
      pyGet d2 "PM" = .ok pm ∧ pyGet d2 "NT" = .ok nt ∧
      pyGet d2 "daily" = .ok (dailyOf am md pm nt) ∧
      dictKeys d2 = dictKeys boardings_by_tod ++ ["daily"] := by
  refine ⟨pySet boardings_by_tod "daily" (dailyOf am md pm nt), ?_, ?_, ?_, ?_, ?_, ?_, ?_⟩
  · simp [calculate_total_daily_boardings, hAM, hMD, hPM, hNT]
  · rw [pyGet_pySet_ne _ _ _ _ (by decide)]; exact hAM
  · rw [pyGet_pySet_ne _ _ _ _ (by decide)]; exact hMD
  · rw [pyGet_pySet_ne _ _ _ _ (by decide)]; exact hPM
  · rw [pyGet_pySet_ne _ _ _ _ (by decide)]; exact hNT
  · exact pyGet_pySet_self boardings_by_tod "daily" _
  · exact dictKeys_pySet_not_mem boardings_by_tod "daily" _ hnew

open Modxlib Samples in
/-- Witness for C8: on the specification's example input dict, the aggregator
returns the four inputs unchanged plus the 'daily' key. -/
theorem C8_calculate_total_daily_boardings_frame_witness :
    ∃ d2, calculate_total_daily_boardings exTod = .ok d2 ∧
      pyGet d2 "AM" = .ok exAM ∧ pyGet d2 "MD" = .ok exMD ∧
      pyGet d2 "PM" = .ok exPM ∧ pyGet d2 "NT" = .ok exNT ∧
      pyGet d2 "daily" = .ok (dailyOf exAM exMD exPM exNT) ∧
      dictKeys d2 = dictKeys exTod ++ ["daily"] :=
  C8_calculate_total_daily_boardings_frame exTod exAM exMD exPM exNT
    rfl rfl rfl rfl (by decide)

namespace Modxlib

theorem fieldPresent_some (record : PyRec) (f : String)
    (h : fieldPresent record f = true) : ∃ v, pyLookup record f = some v := by
  unfold fieldPresent at h
  cases hv : pyLookup record f with
  | none => rw [hv] at h; exact absurd h (by simp)
  | some v => exact ⟨v, rfl⟩

theorem fieldIntOk_some (record : PyRec) (f : String)
    (h : fieldIntOk record f = true) : ∃ v, pyLookup record f = some v := by
  unfold fieldIntOk at h
  cases hv : pyLookup record f with
  | none => rw [hv] at h; exact absurd h (by simp)
  | some v => exact ⟨v, rfl⟩

theorem recordOk_fields_present (record : PyRec) (h : recordOk record = true) :
    ∀ f ∈ requiredFields, ∃ v, pyLookup record f = some v := by
  simp only [recordOk, Bool.and_eq_true] at h
  obtain ⟨⟨⟨⟨⟨⟨⟨⟨⟨h1, h2⟩, h3⟩, h4⟩, h5⟩, h6⟩, h7⟩, h8⟩, h9⟩, h10⟩ := h
  intro f hf
  simp only [requiredFields, List.mem_cons, List.not_mem_nil, or_false] at hf
  rcases hf with rfl | rfl | rfl | rfl | rfl | rfl | rfl | rfl | rfl | rfl
  · exact fieldIntOk_some _ _ h1
  · exact fieldIntOk_some _ _ h2
  · exact fieldPresent_some _ _ h3
  · exact fieldPresent_some _ _ h4
  · exact fieldPresent_some _ _ h5
  · exact fieldPresent_some _ _ h6
  · exact fieldPresent_some _ _ h7
  · exact fieldIntOk_some _ _ h8
  · exact fieldPresent_some _ _ h9
  · exact fieldPresent_some _ _ h10

end Modxlib

open Modxlib Samples in
/-- C9 counterexample: a one-record source whose schema lacks the `id` field
makes construction fail with the native `KeyError('id')` from the record
access, which is not a `MissingAttributeError` - no exception class of that
name exists in the source or its libraries. -/
theorem C9_missing_attribute_counterexample :
    tazManagerInit [] [rawRecNoId] = .error (.keyError "id") ∧
    (PyErr.keyError "id").isMissingAttribute = false :=
  ⟨rfl, rfl⟩

open Modxlib in
/-- C9 as amended: construction from a source in which every record carries
all ten required fields (with `int(...)`-convertible id, taz and in_brmpo)
succeeds; construction from a source in which some record lacks some required
field never succeeds, the failure surfacing as the underlying native error -
in particular a record lacking `id` fails its construction with exactly
`KeyError('id')`. -/
theorem C9_missing_attribute_amended (cls : List TazRec) (records : List PyRec) :
    ((∀ r ∈ records, recordOk r = true) →
       ∃ t, tazManagerInit cls records = .ok t) ∧
    ((∃ r ∈ records, ∃ f ∈ requiredFields, pyLookup r f = none) →
       ∀ t, tazManagerInit cls records ≠ .ok t) ∧
    (∀ r : PyRec, pyLookup r "id" = none →
       tazManagerInit cls (r :: records) = .error (.keyError "id")) := by
  refine ⟨?_, ?_, ?_⟩
  · intro hall
    obtain ⟨ts, hts⟩ := loadRecords_ok_of_all records hall
    exact ⟨cls ++ ts, by simp [tazManagerInit, hts]⟩
  · rintro ⟨r, hr, f, hf, hnone⟩ t hok
    unfold tazManagerInit at hok
    cases hl : loadRecords records with
    | error e => rw [hl] at hok; exact absurd hok (by simp)
    | ok parsed =>
        obtain ⟨a, ha⟩ := loadRecords_all_ok records parsed hl r hr
        obtain ⟨v, hv⟩ :=
          recordOk_fields_present r (recordOk_of_parseRecord_ok r a ha) f hf
        rw [hnone] at hv
        cases hv
  · intro r h
    have hl := loadRecords_head_error r records _ (parseRecord_missing_id r h)
    simp [tazManagerInit, hl]

open Modxlib Samples in
/-- Witness for C9's amended theorem: construction from the well-formed
one-record source succeeds. -/
theorem C9_missing_attribute_amended_witness :
    ∃ t, tazManagerInit [] [rawRec1] = .ok t :=
  (C9_missing_attribute_amended [] [rawRec1]).1 (by decide)

open Modxlib in
/-- C10: whenever the handle dict supplies each of the four periods and each
requested matrix, `load_trip_tables` with an explicit (duplicate-free) mode
list returns a dict whose keys are exactly 'am', 'md', 'pm', 'nt', each inner
dict keyed by exactly the requested modes (so the empty list yields four
empty inner dicts); passing `None` is definitionally the same call as passing
the full 18-mode catalogue. -/
theorem C10_load_trip_tables_spec (α : Type)
    (tt_omxs : List (String × List (String × α)))
    (modes : List String) (hnd : modes.Nodup)
    (htt : ∀ p ∈ _all_time_periods,
      ∃ f, pyGet tt_omxs p = .ok f ∧ ∀ m ∈ modes, ∃ v, pyGet f m = .ok v) :
    (∃ d, load_trip_tables tt_omxs (some modes) = .ok d ∧
      dictKeys d = _all_time_periods ∧
      ∀ p ∈ _all_time_periods,
        ∃ inner, pyGet d p = .ok inner ∧ dictKeys inner = modes) ∧
    load_trip_tables tt_omxs none = load_trip_tables tt_omxs (some _all_modes) ∧
    _all_modes.length = 18 := by
  refine ⟨?_, rfl, rfl⟩
  obtain ⟨d, hd, hdk, hdin, _⟩ := loadGo_ok tt_omxs modes hnd _all_time_periods
    [("am", []), ("md", []), ("pm", []), ("nt", [])]
    (by decide) (by intro p hp; simp [dictKeys]; simpa [_all_time_periods] using hp) htt
  exact ⟨d, hd, by rw [hdk]; rfl, hdin⟩

open Modxlib Samples in
/-- Witness for C10: on a handle dict holding one matrix named SOV per
period, requesting `['SOV']` yields the four period keys, each inner dict
keyed by exactly SOV. -/
theorem C10_load_trip_tables_spec_witness :
    ∃ d, load_trip_tables exOmxs (some ["SOV"]) = .ok d ∧
      dictKeys d = _all_time_periods ∧
      ∀ p ∈ _all_time_periods,
        ∃ inner, pyGet d p = .ok inner ∧ dictKeys inner = ["SOV"] :=
  (C10_load_trip_tables_spec Int exOmxs ["SOV"] (by decide)
    (by
      intro p hp
      simp only [_all_time_periods, List.mem_cons, List.not_mem_nil, or_false] at hp
      rcases hp with rfl | rfl | rfl | rfl
      · exact ⟨[("SOV", 11)], rfl, by
          intro m hm
          simp only [List.mem_cons, List.not_mem_nil, or_false] at hm
          subst hm
          exact ⟨11, rfl⟩⟩
      · exact ⟨[("SOV", 12)], rfl, by
          intro m hm
          simp only [List.mem_cons, List.not_mem_nil, or_false] at hm
          subst hm
          exact ⟨12, rfl⟩⟩
      · exact ⟨[("SOV", 13)], rfl, by
          intro m hm
          simp only [List.mem_cons, List.not_mem_nil, or_false] at hm
          subst hm
          exact ⟨13, rfl⟩⟩
      · exact ⟨[("SOV", 14)], rfl, by
          intro m hm
          simp only [List.mem_cons, List.not_mem_nil, or_false] at hm
          subst hm
          exact ⟨14, rfl⟩⟩)).1
